import Mathlib

/-!
Verification development for the teliox Transaction Event Log (TEL) engine.

The Rust sources are shallowly embedded:
* byte vectors (`Vec<u8>`) are modelled as ASCII `String`s;
* the external keri crate's `IdentifierPrefix` and `SelfAddressingPrefix`
  are modelled opaquely by their canonical text form;
* the external crypto collaborator operations `serialize`/`encode` and
  `verify_binding` are passed explicitly as function parameters (`enc`, `vb`),
  mirroring the fact that the core only consumes them;
* fallible Rust functions returning `Result<T, Error>` become
  `Except Error T`.
-/

/-- Error type of the crate (src/error.rs is not in the snapshot; every error
constructed in the embedded files is `Error::Generic(msg)`). -/
inductive Error where
  | Generic (msg : String)
deriving DecidableEq

instance instDecEqExcept {ε α : Type} [DecidableEq ε] [DecidableEq α] :
    DecidableEq (Except ε α) := fun x y =>
  match x, y with
  | .ok a, .ok b =>
      if h : a = b then .isTrue (by rw [h])
      else .isFalse (fun hh => h (Except.ok.inj hh))
  | .error a, .error b =>
      if h : a = b then .isTrue (by rw [h])
      else .isFalse (fun hh => h (Except.error.inj hh))
  | .ok _, .error _ => .isFalse (fun hh => Except.noConfusion hh)
  | .error _, .ok _ => .isFalse (fun hh => Except.noConfusion hh)

/-- Model of keri's `IdentifierPrefix`, kept opaque: only its canonical text
form (`to_str`) is relevant to the embedded code. -/
structure IdentifierPrefix where
  text : String
deriving DecidableEq

/-- Model of `IdentifierPrefix::default()`. -/
def IdentifierPrefix.default : IdentifierPrefix := ⟨""⟩

/-- Model of keri's `SelfAddressingPrefix` (a self-addressing digest), opaque
except for its text form; binding verification is a parameter `vb`. -/
structure SelfAddressingPrefix where
  text : String
deriving DecidableEq

/-- Model of keri's `SerializationFormats`. -/
inductive SerializationFormats where
  | JSON
  | MGPK
  | CBOR
deriving DecidableEq

/-- Model of keri's `SerializationInfo`: the format tag and the encoded size,
the two components `ManagerTelEvent::new` manipulates. -/
structure SerializationInfo where
  kind : SerializationFormats
  size : Nat
deriving DecidableEq

/-- `Inc` payload of a `Vcp` inception event (src/manager_tel.rs). -/
structure Inc where
  issuer_id : IdentifierPrefix
  config : List String
  backer_threshold : Nat
  backers : List IdentifierPrefix
deriving DecidableEq

/-- `Rot` payload of a `Vrt` rotation event (src/manager_tel.rs). -/
structure Rot where
  prev_event : SelfAddressingPrefix
  backers_to_add : List IdentifierPrefix
  backers_to_remove : List IdentifierPrefix
deriving DecidableEq

/-- `ManagerEventType` (src/manager_tel.rs): tag `vcp` or `vrt`. -/
inductive ManagerEventType where
  | Vcp (inc : Inc)
  | Vrt (rot : Rot)
deriving DecidableEq

/-- `ManagerTelEvent` (src/manager_tel.rs). The source field `prefix` (wire
name `i`) is called `pref` here. -/
structure ManagerTelEvent where
  serialization_info : SerializationInfo
  pref : IdentifierPrefix
  sn : Nat
  event_type : ManagerEventType
deriving DecidableEq

/-- `ManagerTelState` (src/manager_tel.rs): no registry-prefix field in this
variant of the state. -/
structure ManagerTelState where
  sn : Nat
  last : String
  issuer : IdentifierPrefix
  backers : Option (List IdentifierPrefix)
deriving DecidableEq

/-- `ManagerTelState::default()`: `u64` zero, empty bytes, default identifier,
`Option::None`. -/
def ManagerTelState.default : ManagerTelState :=
  { sn := 0, last := "", issuer := IdentifierPrefix.default, backers := none }

/-- `ManagerTelEvent::apply_to` (src/manager_tel.rs, lines 84-135), embedded
verbatim including the `Vrt` branch whose removal filter tests membership in
`backers` itself rather than in `backers_to_remove`.
`enc` models `self.serialize()` and `vb` models
`SelfAddressingPrefix::verify_binding`. -/
def ManagerTelEvent.apply_to
    (enc : ManagerTelEvent → Except Error String)
    (vb : SelfAddressingPrefix → String → Bool)
    (self : ManagerTelEvent) (state : ManagerTelState) :
    Except Error ManagerTelState :=
  match self.event_type with
  | ManagerEventType.Vcp vcp =>
      if state ≠ ManagerTelState.default then
        .error (.Generic "Improper manager state")
      else
        let backers := if vcp.config.contains "NB" then none else some vcp.backers
        do
          let last ← enc self
          pure { sn := 0, last := last, issuer := vcp.issuer_id, backers := backers }
  | ManagerEventType.Vrt vrt =>
      if state.sn + 1 = self.sn then
        if vb vrt.prev_event state.last then
          match state.backers with
          | some backers =>
              let new_backers : List IdentifierPrefix :=
                (backers.filter (fun backer => ! backers.contains backer))
                  ++ vrt.backers_to_add
              do
                let last ← enc self
                pure { sn := self.sn, last := last, backers := some new_backers,
                       issuer := state.issuer }
          | none => .error (.Generic "Trying to update backers of backerless state")
        else .error (.Generic "Previous event doesn't match")
      else .error (.Generic "Improper event sn")

/-- Modelled from the spec: the rotation backer update
`new backers = state.backers \ event.br ∪ event.ba`, i.e. remove every
element of `br` from the old list, then append `ba`. Stated for comparison
with the removal filter actually written in `ManagerTelEvent.apply_to`. -/
def specRotationBackers (old br ba : List IdentifierPrefix) : List IdentifierPrefix :=
  (old.filter (fun backer => ! br.contains backer)) ++ ba

/-- `EventSeal` (keri, consumed by src/attached_seal.rs and the generators);
the source field `prefix` is called `pref` here. -/
structure EventSeal where
  pref : IdentifierPrefix
  sn : Nat
  event_digest : SelfAddressingPrefix
deriving DecidableEq

/-- `Issuance` payload (`ra` registry anchor) of a `bis` event
(src/vc_event.rs, surviving copy used by src/vc_state.rs). -/
structure Issuance where
  registry_anchor : EventSeal
deriving DecidableEq

/-- `SimpleIssuance` payload (`ri` registry id) of an `iss` event. -/
structure SimpleIssuance where
  registry_id : IdentifierPrefix
deriving DecidableEq

/-- `Revocation` payload (`p` previous event hash, `ra` optional registry
anchor) of `rev` and `brv` events. -/
structure Revocation where
  prev_event_hash : SelfAddressingPrefix
  registry_anchor : Option EventSeal
deriving DecidableEq

/-- `EventType` of VC events: tags `iss`, `rev`, `bis`, `brv`. -/
inductive EventType where
  | Iss (iss : SimpleIssuance)
  | Rev (rev : Revocation)
  | Bis (iss : Issuance)
  | Brv (rev : Revocation)
deriving DecidableEq

/-- `VCEvent` (the VC-log event); the source field `prefix` is `pref` here. -/
structure VCEvent where
  serialization_info : SerializationInfo
  pref : SelfAddressingPrefix
  sn : Nat
  event_type : EventType
deriving DecidableEq

/-- `TelState` of a VC log (src/vc_state.rs): `NotIsuued` [sic],
`Issued(last_bytes)`, `Revoked`. -/
inductive TelState where
  | NotIsuued
  | Issued (last : String)
  | Revoked
deriving DecidableEq

/-- `TelState::apply` (src/vc_state.rs, lines 16-48). `enc` models
`event.serialize()`, `vb` models `verify_binding`. -/
def TelState.apply
    (enc : VCEvent → Except Error String)
    (vb : SelfAddressingPrefix → String → Bool)
    (self : TelState) (event : VCEvent) : Except Error TelState :=
  match event.event_type with
  | EventType.Bis _ =>
      match self with
      | TelState.NotIsuued => do pure (TelState.Issued (← enc event))
      | _ => .error (.Generic "Wrong state")
  | EventType.Brv rev =>
      match self with
      | TelState.Issued last =>
          if vb rev.prev_event_hash last then pure TelState.Revoked
          else .error (.Generic "Previous event doesn't match")
      | _ => .error (.Generic "Wrong state")
  | EventType.Iss _ =>
      match self with
      | TelState.NotIsuued => do pure (TelState.Issued (← enc event))
      | _ => .error (.Generic "Wrong state")
  | EventType.Rev rev =>
      match self with
      | TelState.Issued last =>
          if vb rev.prev_event_hash last then pure TelState.Revoked
          else .error (.Generic "Previous event doesn't match")
      | _ => .error (.Generic "Wrong state")

/-- The URL-safe Base64 alphabet used by `base64::encode_config(_, URL_SAFE)`. -/
def b64alphabet : List Char :=
  "ABCDEFGHIJKLMNOPQRSTUVWXYZabcdefghijklmnopqrstuvwxyz0123456789-_".data

/-- Character of the URL-safe Base64 alphabet at a 6-bit index. -/
def b64char (i : Nat) : Char := b64alphabet.getD i 'A'

/-- Base64 encoding with padding of a byte list, as performed by
`base64::encode_config` with the URL-safe alphabet. -/
def b64encode : List Nat → List Char
  | a :: b :: c :: rest =>
      b64char (a / 4) :: b64char ((a % 4) * 16 + b / 16) ::
      b64char ((b % 16) * 4 + c / 64) :: b64char (c % 64) :: b64encode rest
  | [a, b] => [b64char (a / 4), b64char ((a % 4) * 16 + b / 16), b64char ((b % 16) * 4), '=']
  | [a] => [b64char (a / 4), b64char ((a % 4) * 16), '=', '=']
  | [] => []

/-- Big-endian bytes of a `u64` (`u64::to_be_bytes`). -/
def u64BeBytes (sn : Nat) : List Nat :=
  [sn / 2 ^ 56 % 256, sn / 2 ^ 48 % 256, sn / 2 ^ 40 % 256, sn / 2 ^ 32 % 256,
   sn / 2 ^ 24 % 256, sn / 2 ^ 16 % 256, sn / 2 ^ 8 % 256, sn % 256]

/-- The 16-byte buffer `[0; 8] ++ u64::to_be_bytes(sn)` built by
`num_to_base_64` (src/attached_seal.rs, lines 30-34). -/
def snBuffer (sn : Nat) : List Nat := List.replicate 8 0 ++ u64BeBytes sn

/-- `num_to_base_64` (src/attached_seal.rs, lines 30-34): first 22 characters
of the URL-safe Base64 encoding of `snBuffer sn`. The source wraps the value
in `Ok`, which can never be an error, so the model returns the string. -/
def num_to_base_64 (sn : Nat) : String :=
  String.mk ((b64encode (snBuffer sn)).take 22)

/-- Number of leading zero bytes of a byte list. -/
def leadingZeros : List Nat → Nat
  | [] => 0
  | b :: rest => if b = 0 then leadingZeros rest + 1 else 0

/-- Leading zero bytes shared by the 16-byte buffers of two sequence
numbers. -/
def sharedLZ (m n : Nat) : Nat :=
  min (leadingZeros (snBuffer m)) (leadingZeros (snBuffer n))

/-- Number of complete Base64 characters lying entirely inside the first `L`
bytes of the encoded buffer (each character covers six bits). -/
def zchars (L : Nat) : Nat := 4 * (L / 3) + 8 * (L % 3) / 6

/-- Lexicographic less-or-equal on character lists. -/
def lexLe (a b : List Char) : Prop := a = b ∨ List.Lex (· < ·) a b

/-- `AttachedEventSeal` (src/attached_seal.rs). -/
structure AttachedEventSeal where
  event_seal : EventSeal
deriving DecidableEq

/-- `AttachedEventSeal::serialize` (src/attached_seal.rs, lines 18-27):
the concatenation of the five segments, in source order. -/
def AttachedEventSeal.serialize (self : AttachedEventSeal) : String :=
  "-eAB" ++ (self.event_seal.pref.text ++ ("0A" ++
    (num_to_base_64 self.event_seal.sn ++ self.event_seal.event_digest.text)))

/-- `VerifiableTelEvent` (src/verifiable_event.rs); its seal component is
the attached seal of src/attached_seal.rs. -/
structure VerifiableTelEvent where
  event : VCEvent
  seal_att : AttachedEventSeal

/-- `VerifiableTelEvent::serialize` (src/verifiable_event.rs, lines 16-20):
`[event_bytes, seal_bytes].join("-")`, which places a single `-` byte between
the two segments. -/
def VerifiableTelEvent.serialize
    (enc : VCEvent → Except Error String) (self : VerifiableTelEvent) :
    Except Error String := do
  let ev ← enc self.event
  pure (ev ++ "-" ++ self.seal_att.serialize)

/-- `ManagerTelState` of src/state/mod.rs: the module-layout variant of the
manager state, which additionally records the registry prefix (field `pref`
models the source field `prefix`). Used by the event generators. -/
structure ManagerTelStateN where
  pref : IdentifierPrefix
  sn : Nat
  last : String
  issuer : IdentifierPrefix
  backers : Option (List IdentifierPrefix)
deriving DecidableEq

/-- `ManagerTelEvent::new` (src/manager_tel.rs, lines 54-75): encode once with
`size = 0`, measure, then rebuild the event with the measured size. -/
def ManagerTelEvent.new
    (enc : ManagerTelEvent → Except Error String)
    (pref : IdentifierPrefix) (sn : Nat) (event_type : ManagerEventType)
    (format : SerializationFormats) : Except Error ManagerTelEvent := do
  let size := (← enc { serialization_info := ⟨format, 0⟩, pref := pref, sn := sn,
                       event_type := event_type }).length
  pure { serialization_info := ⟨format, size⟩, pref := pref, sn := sn,
         event_type := event_type }

/-- `Event` (src/event/mod.rs): management or VC event. -/
inductive Event where
  | Management (ev : ManagerTelEvent)
  | Vc (ev : VCEvent)
deriving DecidableEq

/-- `make_rotation_event` (src/tel/event_generator.rs, lines 37-55):
previous-event digest of `state.last`, sequence number `state.sn + 1`.
`drv` models `derivation.derive`. -/
def make_rotation_event
    (enc : ManagerTelEvent → Except Error String)
    (drv : String → SelfAddressingPrefix)
    (state : ManagerTelStateN) (ba br : List IdentifierPrefix)
    (serialization_format : SerializationFormats) : Except Error Event := do
  let rot_data : Rot :=
    { prev_event := drv state.last, backers_to_add := ba, backers_to_remove := br }
  let ev ← ManagerTelEvent.new enc state.pref (state.sn + 1)
    (ManagerEventType.Vrt rot_data) serialization_format
  pure (Event.Management ev)

/-- Modelled from the spec: `SourceSeal { sn, digest }` (src/seal.rs is not in
the snapshot; the processor only stores it). -/
structure EventSourceSeal where
  sn : Nat
  digest : SelfAddressingPrefix
deriving DecidableEq

/-- `VerifiableEvent` (src/event/verifiable_event.rs is not in the snapshot):
an event paired with its attached source seal, as used by the processor. -/
structure VerifiableEventN where
  event : Event
  seal_src : EventSourceSeal
deriving DecidableEq

/-- Folding step of `get_management_tel_state` (the closure at
src/processor/mod.rs, lines 25-32): apply a management event to the
accumulated state, replace the accumulator with an error on a `Vc` event. -/
def mgmtFoldStep
    (enc : ManagerTelEvent → Except Error String)
    (vb : SelfAddressingPrefix → String → Bool)
    (state : Except Error ManagerTelState) (ev : VerifiableEventN) :
    Except Error ManagerTelState :=
  match ev.event with
  | Event.Management event => state.bind (fun s => event.apply_to enc vb s)
  | Event.Vc _ => .error (.Generic "Improper event type")

/-- `EventProcessor::get_management_tel_state` (src/processor/mod.rs, lines
18-36): fold the persisted management stream with `apply`. The database
lookup result is the `Option (List VerifiableEventN)` argument. -/
def get_management_tel_state
    (enc : ManagerTelEvent → Except Error String)
    (vb : SelfAddressingPrefix → String → Bool)
    (events : Option (List VerifiableEventN)) : Except Error ManagerTelState :=
  match events with
  | some evs => evs.foldl (mgmtFoldStep enc vb) (.ok ManagerTelState.default)
  | none => .ok ManagerTelState.default

/-- Folding step of `get_vc_state` (the closure at src/processor/mod.rs,
lines 42-47): apply a `Vc` event to the accumulated state, leave the
accumulator untouched on any other event. -/
def vcFoldStep
    (enc : VCEvent → Except Error String)
    (vb : SelfAddressingPrefix → String → Bool)
    (state : Except Error TelState) (ev : VerifiableEventN) :
    Except Error TelState :=
  match ev.event with
  | Event.Vc event => state.bind (fun s => s.apply enc vb event)
  | _ => state

/-- `EventProcessor::get_vc_state` (src/processor/mod.rs, lines 38-51): fold
the persisted VC stream with `apply`. The initial state is
`TelState::default()`, i.e. `NotIsuued`. -/
def get_vc_state
    (enc : VCEvent → Except Error String)
    (vb : SelfAddressingPrefix → String → Bool)
    (events : Option (List VerifiableEventN)) : Except Error TelState :=
  match events with
  | some evs => evs.foldl (vcFoldStep enc vb) (.ok TelState.NotIsuued)
  | none => .ok TelState.NotIsuued

/-- Test whether a persisted verifiable event wraps a VC event. -/
def VerifiableEventN.isVc (ev : VerifiableEventN) : Bool :=
  match ev.event with
  | Event.Vc _ => true
  | Event.Management _ => false

section Examples

/-- Fixed encoder used in concrete examples and witnesses. -/
def encM0 : ManagerTelEvent → Except Error String := fun _ => .ok "M"

/-- Fixed VC-event encoder used in concrete examples and witnesses. -/
def encV0 : VCEvent → Except Error String := fun _ => .ok "V"

/-- Fixed binding verifier that always succeeds, for concrete instances. -/
def vbTrue : SelfAddressingPrefix → String → Bool := fun _ _ => true

/-- Fixed binding verifier that always fails, for concrete instances. -/
def vbFalse : SelfAddressingPrefix → String → Bool := fun _ _ => false

/-- A concrete inception payload used in examples and witnesses. -/
def incEx : Inc :=
  { issuer_id := ⟨"I"⟩, config := [], backer_threshold := 1, backers := [⟨"B"⟩] }

/-- A concrete `NB` inception payload. -/
def incNBEx : Inc :=
  { issuer_id := ⟨"I"⟩, config := ["NB"], backer_threshold := 0, backers := [] }

/-- A concrete inception event used in examples and witnesses. -/
def vcpEx : ManagerTelEvent :=
  { serialization_info := ⟨SerializationFormats.JSON, 0⟩
  , pref := ⟨"R"⟩, sn := 0
  , event_type := ManagerEventType.Vcp incEx }

/-- A concrete `NB` inception event. -/
def vcpNBEx : ManagerTelEvent :=
  { serialization_info := ⟨SerializationFormats.JSON, 0⟩
  , pref := ⟨"R"⟩, sn := 0
  , event_type := ManagerEventType.Vcp incNBEx }

/-- A concrete inception event carrying a nonzero sequence number. -/
def vcpSn42Ex : ManagerTelEvent :=
  { serialization_info := ⟨SerializationFormats.JSON, 0⟩
  , pref := ⟨"R"⟩, sn := 42
  , event_type := ManagerEventType.Vcp incEx }

/-- A concrete rotation payload with empty add/remove lists. -/
def rotNoopEx : Rot :=
  { prev_event := ⟨"p"⟩, backers_to_add := [], backers_to_remove := [] }

/-- A concrete rotation event at sequence number 1. -/
def vrtSn1Ex : ManagerTelEvent :=
  { serialization_info := ⟨SerializationFormats.JSON, 0⟩
  , pref := ⟨"R"⟩, sn := 1, event_type := ManagerEventType.Vrt rotNoopEx }

/-- A concrete rotation event at sequence number 10. -/
def vrtSn10Ex : ManagerTelEvent :=
  { serialization_info := ⟨SerializationFormats.JSON, 0⟩
  , pref := ⟨"R"⟩, sn := 10, event_type := ManagerEventType.Vrt rotNoopEx }

/-- A concrete manager state at sequence number 1 with one backer. -/
def stateSn1Ex : ManagerTelState :=
  { sn := 1, last := "L", issuer := ⟨"I"⟩, backers := some [⟨"A"⟩] }

/-- A concrete manager state at sequence number 0 with one backer. -/
def stateBkEx : ManagerTelState :=
  { sn := 0, last := "L", issuer := ⟨"I"⟩, backers := some [⟨"A"⟩] }

/-- A concrete revocation payload. -/
def revEx : Revocation := { prev_event_hash := ⟨"h"⟩, registry_anchor := none }

/-- A concrete `rev` VC event. -/
def vcRevEx : VCEvent :=
  { serialization_info := ⟨SerializationFormats.JSON, 0⟩
  , pref := ⟨"C"⟩, sn := 1, event_type := EventType.Rev revEx }

/-- A concrete `iss` VC event. -/
def vcIssEx : VCEvent :=
  { serialization_info := ⟨SerializationFormats.JSON, 0⟩
  , pref := ⟨"C"⟩, sn := 0
  , event_type := EventType.Iss { registry_id := ⟨"R"⟩ } }

example :
    ManagerTelEvent.apply_to encM0 vbTrue vcpEx ManagerTelState.default =
      .ok { sn := 0, last := "M", issuer := ⟨"I"⟩, backers := some [⟨"B"⟩] } := by
  decide

example :
    ManagerTelEvent.apply_to encM0 vbTrue vcpNBEx ManagerTelState.default =
      .ok { sn := 0, last := "M", issuer := ⟨"I"⟩, backers := none } := by
  decide

/-- Fixed digest derivation used in concrete instances: the digest text is
the digested byte string itself. -/
def drvId : String → SelfAddressingPrefix := fun bs => ⟨bs⟩

/-- A concrete module-layout manager state used with the generators. -/
def stateNEx : ManagerTelStateN :=
  { pref := ⟨"R"⟩, sn := 3, last := "L", issuer := ⟨"I"⟩, backers := some [] }

/-- A concrete attached event seal. -/
def sealEx : AttachedEventSeal :=
  { event_seal := { pref := ⟨"P"⟩, sn := 0, event_digest := ⟨"D"⟩ } }

/-- A concrete attached source seal. -/
def sealSrcEx : EventSourceSeal := { sn := 1, digest := ⟨"S"⟩ }

/-- A persisted management event (a `Vcp` wrapped with a source seal). -/
def mgmtVE : VerifiableEventN := { event := Event.Management vcpEx, seal_src := sealSrcEx }

/-- A persisted VC event (an `iss` wrapped with a source seal). -/
def vcIssVE : VerifiableEventN := { event := Event.Vc vcIssEx, seal_src := sealSrcEx }

end Examples

/-! ### Claim theorems -/

/-- C2: for every VC state `Issued(last)` and every `Rev` or `Brv` event,
`apply` returns `Revoked` iff the event's previous-event hash verifies against
`last`; a failed binding yields the `PreviousMismatch` error, and applying the
event to any state other than `Issued` yields the `WrongState` error. -/
theorem vc_apply_rev_brv_binding_iff
    (enc : VCEvent → Except Error String)
    (vb : SelfAddressingPrefix → String → Bool)
    (e : VCEvent) (rev : Revocation) (last : String)
    (h : e.event_type = EventType.Rev rev ∨ e.event_type = EventType.Brv rev) :
    ((TelState.Issued last).apply enc vb e = .ok TelState.Revoked ↔
      vb rev.prev_event_hash last = true) ∧
    (vb rev.prev_event_hash last = false →
      (TelState.Issued last).apply enc vb e =
        .error (.Generic "Previous event doesn't match")) ∧
    (∀ st : TelState, (∀ l, st ≠ TelState.Issued l) →
      st.apply enc vb e = .error (.Generic "Wrong state")) := by
  rcases h with h | h <;>
  · refine ⟨?_, ?_, ?_⟩
    · constructor
      · intro hok
        by_cases hb : vb rev.prev_event_hash last
        · exact hb
        · simp [TelState.apply, h, hb] at hok
      · intro hb
        simp [TelState.apply, h, hb, pure, Except.pure]
    · intro hb
      simp [TelState.apply, h, hb]
    · intro st hst
      cases st with
      | NotIsuued => simp [TelState.apply, h]
      | Issued l => exact absurd rfl (hst l)
      | Revoked => simp [TelState.apply, h]

/-- Witness for C2 at a concrete revocation event and state. -/
theorem vc_apply_rev_brv_binding_iff_witness :
    (vcRevEx.event_type = EventType.Rev revEx ∨
      vcRevEx.event_type = EventType.Brv revEx) ∧
    (((TelState.Issued "V").apply encV0 vbTrue vcRevEx = .ok TelState.Revoked ↔
        vbTrue revEx.prev_event_hash "V" = true) ∧
     (vbTrue revEx.prev_event_hash "V" = false →
        (TelState.Issued "V").apply encV0 vbTrue vcRevEx =
          .error (.Generic "Previous event doesn't match")) ∧
     (∀ st : TelState, (∀ l, st ≠ TelState.Issued l) →
        st.apply encV0 vbTrue vcRevEx = .error (.Generic "Wrong state"))) :=
  ⟨Or.inl rfl,
   vc_apply_rev_brv_binding_iff encV0 vbTrue vcRevEx revEx "V" (Or.inl rfl)⟩

/-- C5: a `Vcp` event applies successfully only against the default manager
state, any other state is rejected with the `ImproperState` error, and a
second `Vcp` against an already-incepted registry (whose stored last bytes
are nonempty) is rejected the same way. -/
theorem vcp_only_on_default_state
    (enc : ManagerTelEvent → Except Error String)
    (vb : SelfAddressingPrefix → String → Bool)
    (e e' : ManagerTelEvent) (vcp vcp' : Inc) (state s : ManagerTelState)
    (he : e.event_type = ManagerEventType.Vcp vcp)
    (he' : e'.event_type = ManagerEventType.Vcp vcp') :
    (∀ s0, e.apply_to enc vb state = .ok s0 → state = ManagerTelState.default) ∧
    (state ≠ ManagerTelState.default →
      e.apply_to enc vb state = .error (.Generic "Improper manager state")) ∧
    (e.apply_to enc vb ManagerTelState.default = .ok s → s.last ≠ "" →
      e'.apply_to enc vb s = .error (.Generic "Improper manager state")) := by
  refine ⟨?_, ?_, ?_⟩
  · intro s0 hok
    by_cases hd : state = ManagerTelState.default
    · exact hd
    · simp [ManagerTelEvent.apply_to, he, hd] at hok
  · intro hd
    simp [ManagerTelEvent.apply_to, he, hd]
  · intro _ hlast
    have hd : s ≠ ManagerTelState.default := by
      intro hcontra
      exact hlast (by rw [hcontra]; rfl)
    simp [ManagerTelEvent.apply_to, he', hd]

/-- Witness for C5: a concrete inception against a non-default state and
a second inception against the incepted state. -/
theorem vcp_only_on_default_state_witness :
    (vcpEx.event_type = ManagerEventType.Vcp incEx) ∧
    (vcpNBEx.event_type = ManagerEventType.Vcp incNBEx) ∧
    ((∀ s0, vcpEx.apply_to encM0 vbTrue stateSn1Ex = .ok s0 →
        stateSn1Ex = ManagerTelState.default) ∧
     (stateSn1Ex ≠ ManagerTelState.default →
        vcpEx.apply_to encM0 vbTrue stateSn1Ex =
          .error (.Generic "Improper manager state")) ∧
     (vcpEx.apply_to encM0 vbTrue ManagerTelState.default =
        .ok { sn := 0, last := "M", issuer := ⟨"I"⟩, backers := some [⟨"B"⟩] } →
      ({ sn := 0, last := "M", issuer := ⟨"I"⟩,
         backers := some [⟨"B"⟩] } : ManagerTelState).last ≠ "" →
      vcpNBEx.apply_to encM0 vbTrue
          { sn := 0, last := "M", issuer := ⟨"I"⟩, backers := some [⟨"B"⟩] } =
        .error (.Generic "Improper manager state"))) :=
  ⟨rfl, rfl,
   vcp_only_on_default_state encM0 vbTrue vcpEx vcpNBEx incEx incNBEx stateSn1Ex
     { sn := 0, last := "M", issuer := ⟨"I"⟩, backers := some [⟨"B"⟩] } rfl rfl⟩

/-- C7: a `Vrt` event whose sequence number differs from the state's
sequence number plus one is rejected with the `SequenceError` error. -/
theorem vrt_sequence_error
    (enc : ManagerTelEvent → Except Error String)
    (vb : SelfAddressingPrefix → String → Bool)
    (e : ManagerTelEvent) (vrt : Rot) (state : ManagerTelState)
    (he : e.event_type = ManagerEventType.Vrt vrt)
    (hsn : state.sn + 1 ≠ e.sn) :
    e.apply_to enc vb state = .error (.Generic "Improper event sn") := by
  simp [ManagerTelEvent.apply_to, he, hsn]

/-- Witness for C7: a `Vrt` at sequence number 10 against a state at
sequence number 1 is rejected. -/
theorem vrt_sequence_error_witness :
    (vrtSn10Ex.event_type = ManagerEventType.Vrt rotNoopEx) ∧
    (stateSn1Ex.sn + 1 ≠ vrtSn10Ex.sn) ∧
    vrtSn10Ex.apply_to encM0 vbTrue stateSn1Ex =
      .error (.Generic "Improper event sn") :=
  ⟨rfl, by decide,
   vrt_sequence_error encM0 vbTrue vrtSn10Ex rotNoopEx stateSn1Ex rfl (by decide)⟩

/-- C10: applying a `Vcp` event to the default state never inspects the
event's own sequence-number field: for an arbitrary `sn` value the
application succeeds (whenever encoding does) and the resulting state has
`sn = 0`. -/
theorem vcp_ignores_event_sn
    (enc : ManagerTelEvent → Except Error String)
    (vb : SelfAddressingPrefix → String → Bool)
    (e : ManagerTelEvent) (vcp : Inc) (bs : String)
    (he : e.event_type = ManagerEventType.Vcp vcp)
    (henc : enc e = .ok bs) :
    e.apply_to enc vb ManagerTelState.default =
      .ok { sn := 0, last := bs, issuer := vcp.issuer_id,
            backers := if vcp.config.contains "NB" then none
                       else some vcp.backers } := by
  simp [ManagerTelEvent.apply_to, he, henc]

/-- Witness for C10: a `Vcp` carrying sequence number 42 still incepts the
registry at `sn = 0`. -/
theorem vcp_ignores_event_sn_witness :
    (vcpSn42Ex.event_type = ManagerEventType.Vcp incEx) ∧
    (encM0 vcpSn42Ex = .ok "M") ∧
    vcpSn42Ex.apply_to encM0 vbTrue ManagerTelState.default =
      .ok { sn := 0, last := "M", issuer := incEx.issuer_id,
            backers := if incEx.config.contains "NB" then none
                       else some incEx.backers } :=
  ⟨rfl, rfl, vcp_ignores_event_sn encM0 vbTrue vcpSn42Ex incEx "M" rfl rfl⟩

/-- C1: the `Vrt` branch of `apply_to` does not remove `event.br` from the
old backer list: its filter tests membership in the old list itself, so every
old backer is discarded and the result is exactly `event.ba`. At the concrete
input below (one old backer, empty `br` and `ba`) the code yields an empty
backer list where the claimed set-difference semantics
(`specRotationBackers`) keeps the old backer. -/
theorem vrt_self_filter_empties_backers :
    ManagerTelEvent.apply_to encM0 vbTrue vrtSn1Ex stateBkEx =
      .ok { sn := 1, last := "M", issuer := ⟨"I"⟩, backers := some [] } ∧
    specRotationBackers [⟨"A"⟩] [] [] = [⟨"A"⟩] ∧
    (some ([] : List IdentifierPrefix)) ≠ (some [(⟨"A"⟩ : IdentifierPrefix)]) := by
  refine ⟨by decide, by decide, by decide⟩

/-- C3: a successfully generated rotation event has sequence number
`state.sn + 1` and carries the digest of `state.last` as its previous-event
field. -/
theorem make_rotation_event_sn_and_prev
    (enc : ManagerTelEvent → Except Error String)
    (drv : String → SelfAddressingPrefix)
    (state : ManagerTelStateN) (ba br : List IdentifierPrefix)
    (fmt : SerializationFormats) (ev : ManagerTelEvent)
    (h : make_rotation_event enc drv state ba br fmt = .ok (Event.Management ev)) :
    ev.sn = state.sn + 1 ∧
    ev.event_type = ManagerEventType.Vrt
      { prev_event := drv state.last, backers_to_add := ba,
        backers_to_remove := br } := by
  simp only [make_rotation_event, ManagerTelEvent.new, bind, Except.bind] at h
  cases henc : enc
      { serialization_info := ⟨fmt, 0⟩, pref := state.pref, sn := state.sn + 1,
        event_type := ManagerEventType.Vrt
          { prev_event := drv state.last, backers_to_add := ba,
            backers_to_remove := br } } with
  | error err => rw [henc] at h; exact absurd h (by simp)
  | ok bs =>
      rw [henc] at h
      simp only [pure, Except.pure, Except.ok.injEq, Event.Management.injEq] at h
      subst h
      exact ⟨rfl, rfl⟩

/-- Witness for C3 at a concrete state and encoder. -/
theorem make_rotation_event_sn_and_prev_witness :
    make_rotation_event encM0 drvId stateNEx [] [] SerializationFormats.JSON =
      .ok (Event.Management
        { serialization_info := ⟨SerializationFormats.JSON, 1⟩, pref := ⟨"R"⟩,
          sn := 4,
          event_type := ManagerEventType.Vrt
            { prev_event := ⟨"L"⟩, backers_to_add := [],
              backers_to_remove := [] } }) ∧
    (({ serialization_info := ⟨SerializationFormats.JSON, 1⟩, pref := ⟨"R"⟩,
        sn := 4,
        event_type := ManagerEventType.Vrt
          { prev_event := ⟨"L"⟩, backers_to_add := [],
            backers_to_remove := [] } } : ManagerTelEvent).sn = stateNEx.sn + 1 ∧
      ({ serialization_info := ⟨SerializationFormats.JSON, 1⟩, pref := ⟨"R"⟩,
         sn := 4,
         event_type := ManagerEventType.Vrt
           { prev_event := ⟨"L"⟩, backers_to_add := [],
             backers_to_remove := [] } } : ManagerTelEvent).event_type =
        ManagerEventType.Vrt
          { prev_event := drvId stateNEx.last, backers_to_add := [],
            backers_to_remove := [] }) :=
  ⟨by decide,
   make_rotation_event_sn_and_prev encM0 drvId stateNEx [] []
     SerializationFormats.JSON _ (by decide)⟩

/-- C4 counterexample: at a concrete event and seal, the serialized
`VerifiableTelEvent` is not the event bytes immediately followed by the seal
bytes — `Vec::join("-")` places a `-` byte between the two segments. -/
theorem verifiable_event_join_inserts_separator :
    (encV0 vcIssEx = .ok "V") ∧
    VerifiableTelEvent.serialize encV0 { event := vcIssEx, seal_att := sealEx } ≠
      .ok ("V" ++ AttachedEventSeal.serialize sealEx) := by
  refine ⟨rfl, by decide⟩

/-- C4 (amended): the serialized `VerifiableTelEvent` is the event's encoded
bytes, a single `-` separator byte, then the seal's encoded bytes; the seal's
own encoding begins with the literal ASCII `-eAB`. -/
theorem verifiable_event_serialize_with_separator
    (enc : VCEvent → Except Error String) (ve : VerifiableTelEvent)
    (evBytes : String) (henc : enc ve.event = .ok evBytes) :
    ve.serialize enc = .ok (evBytes ++ "-" ++ ve.seal_att.serialize) ∧
    ∃ r, ve.seal_att.serialize = "-eAB" ++ r := by
  constructor
  · simp [VerifiableTelEvent.serialize, henc, bind, Except.bind, pure, Except.pure]
  · exact ⟨_, rfl⟩

/-- Witness for the amended C4 at a concrete event and seal. -/
theorem verifiable_event_serialize_with_separator_witness :
    (encV0 vcIssEx = .ok "V") ∧
    (VerifiableTelEvent.serialize encV0 { event := vcIssEx, seal_att := sealEx } =
       .ok ("V" ++ "-" ++ AttachedEventSeal.serialize sealEx) ∧
     ∃ r, AttachedEventSeal.serialize sealEx = "-eAB" ++ r) :=
  ⟨rfl, verifiable_event_serialize_with_separator encV0
    { event := vcIssEx, seal_att := sealEx } "V" rfl⟩

/-- C6 counterexample: incepting with `NB` yields a backerless state, but a
`Vrt` whose sequence number is wrong fails against that state with the
`SequenceError` message, not the `BackerlessRotation` one. -/
theorem nb_vrt_wrong_sn_not_backerless_error :
    ManagerTelEvent.apply_to encM0 vbTrue vcpNBEx ManagerTelState.default =
      .ok { sn := 0, last := "M", issuer := ⟨"I"⟩, backers := none } ∧
    ManagerTelEvent.apply_to encM0 vbTrue vrtSn10Ex
        { sn := 0, last := "M", issuer := ⟨"I"⟩, backers := none } =
      .error (.Generic "Improper event sn") ∧
    Error.Generic "Improper event sn" ≠
      Error.Generic "Trying to update backers of backerless state" := by
  refine ⟨by decide, by decide, by decide⟩

/-- C6 (amended): a `Vcp` whose config contains `NB` incepts a state with
`backers = None`; against any backerless state a `Vrt` that passes the
sequence and previous-digest checks fails with the `BackerlessRotation`
error, and (for any backerless state other than the default) no manager
event whatsoever applies successfully, so no rotation ever succeeds on any
reachable state. -/
theorem nb_inception_and_backerless_rotation
    (enc : ManagerTelEvent → Except Error String)
    (vb : SelfAddressingPrefix → String → Bool)
    (e e' : ManagerTelEvent) (vcp : Inc) (vrt : Rot)
    (s state : ManagerTelState)
    (he : e.event_type = ManagerEventType.Vcp vcp)
    (hnb : vcp.config.contains "NB" = true) :
    (e.apply_to enc vb ManagerTelState.default = .ok s → s.backers = none) ∧
    (state.backers = none → e'.event_type = ManagerEventType.Vrt vrt →
      state.sn + 1 = e'.sn → vb vrt.prev_event state.last = true →
      e'.apply_to enc vb state =
        .error (.Generic "Trying to update backers of backerless state")) ∧
    (state.backers = none → state ≠ ManagerTelState.default →
      ∀ s', e'.apply_to enc vb state ≠ .ok s') := by
  refine ⟨?_, ?_, ?_⟩
  · intro hok
    cases henc : enc e with
    | error err => simp [ManagerTelEvent.apply_to, he, hnb, henc, bind, Except.bind] at hok
    | ok bs =>
        simp [ManagerTelEvent.apply_to, he, hnb, henc, bind, Except.bind, pure,
          Except.pure] at hok
        subst hok
        have hm : "NB" ∈ vcp.config := by simpa using hnb
        simp [hm]
  · intro hb he' hsn hvb
    simp [ManagerTelEvent.apply_to, he', hsn, hvb, hb]
  · intro hb hd s' hok
    cases het : e'.event_type with
    | Vcp inc => simp [ManagerTelEvent.apply_to, het, hd] at hok
    | Vrt rot =>
        by_cases hsn : state.sn + 1 = e'.sn
        · by_cases hvb : vb rot.prev_event state.last
          · simp [ManagerTelEvent.apply_to, het, hsn, hvb, hb] at hok
          · simp [ManagerTelEvent.apply_to, het, hsn, hvb] at hok
        · simp [ManagerTelEvent.apply_to, het, hsn] at hok

/-- Witness for the amended C6 at a concrete `NB` inception, backerless
state and rotation event. -/
theorem nb_inception_and_backerless_rotation_witness :
    (vcpNBEx.event_type = ManagerEventType.Vcp incNBEx) ∧
    (incNBEx.config.contains "NB" = true) ∧
    ((vcpNBEx.apply_to encM0 vbTrue ManagerTelState.default =
        .ok { sn := 0, last := "M", issuer := ⟨"I"⟩, backers := none } →
      ({ sn := 0, last := "M", issuer := ⟨"I"⟩,
         backers := none } : ManagerTelState).backers = none) ∧
     (({ sn := 0, last := "M", issuer := ⟨"I"⟩,
         backers := none } : ManagerTelState).backers = none →
      vrtSn1Ex.event_type = ManagerEventType.Vrt rotNoopEx →
      ({ sn := 0, last := "M", issuer := ⟨"I"⟩,
         backers := none } : ManagerTelState).sn + 1 = vrtSn1Ex.sn →
      vbTrue rotNoopEx.prev_event
          ({ sn := 0, last := "M", issuer := ⟨"I"⟩,
             backers := none } : ManagerTelState).last = true →
      vrtSn1Ex.apply_to encM0 vbTrue
          { sn := 0, last := "M", issuer := ⟨"I"⟩, backers := none } =
        .error (.Generic "Trying to update backers of backerless state")) ∧
     (({ sn := 0, last := "M", issuer := ⟨"I"⟩,
         backers := none } : ManagerTelState).backers = none →
      ({ sn := 0, last := "M", issuer := ⟨"I"⟩,
         backers := none } : ManagerTelState) ≠ ManagerTelState.default →
      ∀ s', vrtSn1Ex.apply_to encM0 vbTrue
          { sn := 0, last := "M", issuer := ⟨"I"⟩, backers := none } ≠ .ok s')) :=
  ⟨rfl, by decide,
   nb_inception_and_backerless_rotation encM0 vbTrue vcpNBEx vrtSn1Ex incNBEx
     rotNoopEx { sn := 0, last := "M", issuer := ⟨"I"⟩, backers := none }
     { sn := 0, last := "M", issuer := ⟨"I"⟩, backers := none } rfl (by decide)⟩

/-- Folding the management stream from an error accumulator always yields an
error: a management event keeps the error, a VC event replaces it with the
wrong-class error. -/
theorem mgmt_foldl_error
    (enc : ManagerTelEvent → Except Error String)
    (vb : SelfAddressingPrefix → String → Bool) :
    ∀ (l : List VerifiableEventN) (err : Error),
      ∃ err', l.foldl (mgmtFoldStep enc vb) (.error err) = .error err' := by
  intro l
  induction l with
  | nil => exact fun err => ⟨err, rfl⟩
  | cons ev t ih =>
      intro err
      cases hev : ev.event with
      | Management m =>
          have hstep : mgmtFoldStep enc vb (.error err) ev = .error err := by
            simp [mgmtFoldStep, hev, Except.bind]
          simpa [List.foldl_cons, hstep] using ih err
      | Vc v =>
          have hstep : mgmtFoldStep enc vb (.error err) ev =
              .error (.Generic "Improper event type") := by
            simp [mgmtFoldStep, hev]
          simpa [List.foldl_cons, hstep] using ih (.Generic "Improper event type")

/-- Folding the VC stream ignores every verifiable event that does not wrap a
`Vc` event: the fold over a stream equals the fold over its `Vc`-only
restriction. -/
theorem vc_foldl_filter
    (enc : VCEvent → Except Error String)
    (vb : SelfAddressingPrefix → String → Bool) :
    ∀ (l : List VerifiableEventN) (acc : Except Error TelState),
      l.foldl (vcFoldStep enc vb) acc =
        (l.filter VerifiableEventN.isVc).foldl (vcFoldStep enc vb) acc := by
  intro l
  induction l with
  | nil => intro acc; rfl
  | cons ev t ih =>
      intro acc
      cases hev : ev.event with
      | Management m =>
          have hvc : ev.isVc = false := by simp [VerifiableEventN.isVc, hev]
          have hstep : vcFoldStep enc vb acc ev = acc := by
            simp [vcFoldStep, hev]
          simp [List.foldl_cons, List.filter_cons, hvc, hstep, ih]
      | Vc v =>
          have hvc : ev.isVc = true := by simp [VerifiableEventN.isVc, hev]
          simp [List.foldl_cons, List.filter_cons, hvc, ih]

/-- C9 counterexample: a persisted VC stream that contains a management event
(which `get_vc_state` silently skips) can still produce an error — here two
`iss` events make the fold of the remaining VC events fail — so skipping the
wrong-class event does not guarantee that a state is returned. -/
theorem get_vc_state_error_despite_skipping :
    (∃ ev ∈ [mgmtVE, vcIssVE, vcIssVE], ev.isVc = false) ∧
    get_vc_state encV0 vbTrue (some [mgmtVE, vcIssVE, vcIssVE]) =
      .error (.Generic "Wrong state") := by
  refine ⟨⟨mgmtVE, by decide, by decide⟩, by decide⟩

/-- C9 (amended): the two state folds treat wrong-class events
asymmetrically. A management stream containing any `Vc` event folds to an
error, whereas `get_vc_state` skips management events entirely — its result
equals the fold of the `Vc`-only restriction of the stream, which may itself
be a state or an error. -/
theorem processor_wrong_class_asymmetry
    (encM : ManagerTelEvent → Except Error String)
    (encV : VCEvent → Except Error String)
    (vb : SelfAddressingPrefix → String → Bool)
    (evs : List VerifiableEventN) :
    ((∃ ev ∈ evs, ev.isVc = true) →
      ∃ err, get_management_tel_state encM vb (some evs) = .error err) ∧
    get_vc_state encV vb (some evs) =
      get_vc_state encV vb (some (evs.filter VerifiableEventN.isVc)) := by
  constructor
  · rintro ⟨ev, hmem, hvc⟩
    obtain ⟨s, t, rfl⟩ := List.append_of_mem hmem
    obtain ⟨v, hev⟩ : ∃ v, ev.event = Event.Vc v := by
      cases hev : ev.event with
      | Management m => simp [VerifiableEventN.isVc, hev] at hvc
      | Vc v => exact ⟨v, rfl⟩
    show ∃ err, (s ++ ev :: t).foldl (mgmtFoldStep encM vb)
      (.ok ManagerTelState.default) = .error err
    rw [List.foldl_append, List.foldl_cons]
    have hstep : ∀ acc, mgmtFoldStep encM vb acc ev =
        .error (.Generic "Improper event type") := by
      intro acc; simp [mgmtFoldStep, hev]
    rw [hstep]
    exact mgmt_foldl_error encM vb t (.Generic "Improper event type")
  · show List.foldl (vcFoldStep encV vb) (.ok TelState.NotIsuued) evs = _
    rw [vc_foldl_filter]
    rfl

/-- Witness for the amended C9 at a concrete mixed stream. -/
theorem processor_wrong_class_asymmetry_witness :
    (∃ ev ∈ [mgmtVE, vcIssVE], ev.isVc = true) ∧
    ((∃ err, get_management_tel_state encM0 vbTrue
        (some [mgmtVE, vcIssVE]) = .error err) ∧
     get_vc_state encV0 vbTrue (some [mgmtVE, vcIssVE]) =
       get_vc_state encV0 vbTrue
         (some ([mgmtVE, vcIssVE].filter VerifiableEventN.isVc))) :=
  ⟨⟨vcIssVE, by decide, by decide⟩,
   (processor_wrong_class_asymmetry encM0 encV0 vbTrue [mgmtVE, vcIssVE]).1
     ⟨vcIssVE, by decide, by decide⟩,
   (processor_wrong_class_asymmetry encM0 encV0 vbTrue [mgmtVE, vcIssVE]).2⟩

/-- The zero 6-bit index encodes to the character `A`. -/
theorem b64char_zero : b64char 0 = 'A' := by decide

/-- Base64-encoding a block of `3 * t` zero bytes emits `4 * t` copies of
`A` before the encoding of the remainder. -/
theorem b64encode_replicate_zero (t : Nat) :
    ∀ rest : List Nat,
      b64encode (List.replicate (3 * t) 0 ++ rest) =
        List.replicate (4 * t) 'A' ++ b64encode rest := by
  induction t with
  | zero => intro rest; simp
  | succ t ih =>
      intro rest
      have h3 : List.replicate (3 * (t + 1)) (0 : Nat) =
          0 :: 0 :: 0 :: List.replicate (3 * t) 0 := by
        rw [show 3 * (t + 1) = 3 * t + 1 + 1 + 1 by ring]
        simp [List.replicate_succ]
      have h4 : List.replicate (4 * (t + 1)) 'A' =
          'A' :: 'A' :: 'A' :: 'A' :: List.replicate (4 * t) 'A' := by
        rw [show 4 * (t + 1) = 4 * t + 1 + 1 + 1 + 1 by ring]
        simp [List.replicate_succ]
      rw [h3, h4]
      simp only [List.cons_append]
      rw [show b64encode (0 :: 0 :: 0 :: (List.replicate (3 * t) 0 ++ rest)) =
          b64char (0 / 4) :: b64char ((0 % 4) * 16 + 0 / 16) ::
          b64char ((0 % 16) * 4 + 0 / 64) :: b64char (0 % 64) ::
          b64encode (List.replicate (3 * t) 0 ++ rest) from rfl]
      rw [ih rest]
      norm_num [b64char_zero]

/-- The first character of the encoding of a block starting with a zero byte
is `A`. -/
theorem b64encode_take_one_zero (rest : List Nat) :
    (b64encode (0 :: rest)).take 1 = ['A'] := by
  match rest with
  | [] => decide
  | [b] =>
      rw [show b64encode [0, b] =
        [b64char (0 / 4), b64char ((0 % 4) * 16 + b / 16),
         b64char ((b % 16) * 4), '='] from rfl]
      norm_num [b64char_zero]
  | b :: c :: r =>
      rw [show b64encode (0 :: b :: c :: r) =
        b64char (0 / 4) :: b64char ((0 % 4) * 16 + b / 16) ::
        b64char ((b % 16) * 4 + c / 64) :: b64char (c % 64) ::
        b64encode r from rfl]
      norm_num [b64char_zero]

/-- The first two characters of the encoding of a block starting with two
zero bytes are `A`s. -/
theorem b64encode_take_two_zero (rest : List Nat) :
    (b64encode (0 :: 0 :: rest)).take 2 = ['A', 'A'] := by
  match rest with
  | [] => decide
  | c :: r =>
      rw [show b64encode (0 :: 0 :: c :: r) =
        b64char (0 / 4) :: b64char ((0 % 4) * 16 + 0 / 16) ::
        b64char ((0 % 16) * 4 + c / 64) :: b64char (c % 64) ::
        b64encode r from rfl]
      norm_num [b64char_zero]

/-- A byte list starts with at least `leadingZeros` zero bytes. -/
theorem exists_replicate_of_le_leadingZeros :
    ∀ (t : Nat) (bs : List Nat), t ≤ leadingZeros bs →
      ∃ rest, bs = List.replicate t 0 ++ rest := by
  intro t
  induction t with
  | zero => exact fun bs _ => ⟨bs, rfl⟩
  | succ t ih =>
      intro bs h
      cases bs with
      | nil => simp [leadingZeros] at h
      | cons b rest =>
          by_cases hb : b = 0
          · subst hb
            have ht : t ≤ leadingZeros rest := by
              simp [leadingZeros] at h
              omega
            obtain ⟨r, hr⟩ := ih rest ht
            exact ⟨r, by rw [List.replicate_succ, hr]; rfl⟩
          · simp [leadingZeros, hb] at h

/-- The count of leading zero bytes never exceeds the list length. -/
theorem leadingZeros_le_length (bs : List Nat) : leadingZeros bs ≤ bs.length := by
  induction bs with
  | nil => simp [leadingZeros]
  | cons b rest ih =>
      by_cases hb : b = 0
      · simp [leadingZeros, hb]; omega
      · simp [leadingZeros, hb]

/-- All complete Base64 characters lying inside the leading zero bytes of a
buffer are `A`s. -/
theorem take_zchars_A (L : Nat) (bs : List Nat) (h : L ≤ leadingZeros bs) :
    (b64encode bs).take (zchars L) = List.replicate (zchars L) 'A' := by
  obtain ⟨rest, rfl⟩ := exists_replicate_of_le_leadingZeros L bs h
  have hL : 3 * (L / 3) + L % 3 = L := Nat.div_add_mod L 3
  have hsplit : List.replicate L (0 : Nat) ++ rest =
      List.replicate (3 * (L / 3)) 0 ++ (List.replicate (L % 3) 0 ++ rest) := by
    rw [← List.append_assoc, ← List.replicate_add, hL]
  rw [hsplit, b64encode_replicate_zero]
  have hz : zchars L = 4 * (L / 3) + 8 * (L % 3) / 6 := rfl
  rw [hz, List.take_append_eq_append_take]
  have hlen : (List.replicate (4 * (L / 3)) 'A').length = 4 * (L / 3) := by simp
  have htake : (List.replicate (4 * (L / 3)) 'A').take
      (4 * (L / 3) + 8 * (L % 3) / 6) = List.replicate (4 * (L / 3)) 'A' := by
    apply List.take_of_length_le
    simp
  rw [htake, hlen]
  have hsub : 4 * (L / 3) + 8 * (L % 3) / 6 - 4 * (L / 3) = 8 * (L % 3) / 6 := by
    omega
  rw [hsub]
  have hr3 : L % 3 = 0 ∨ L % 3 = 1 ∨ L % 3 = 2 := by omega
  rcases hr3 with h0 | h1 | h2
  · rw [h0]
    simp
  · rw [h1]
    norm_num
    rw [b64encode_take_one_zero, List.replicate_succ']
  · rw [h2]
    norm_num
    rw [show List.replicate 2 (0 : Nat) ++ rest = 0 :: 0 :: rest from rfl]
    rw [b64encode_take_two_zero, List.replicate_add]
    rfl

/-- The Base64 encoding of the 16-byte buffer has 24 characters. -/
theorem b64_snBuffer_length (sn : Nat) : (b64encode (snBuffer sn)).length = 24 := rfl

/-- The buffer of any sequence number is 16 bytes long. -/
theorem snBuffer_length (sn : Nat) : (snBuffer sn).length = 16 := rfl

/-- C8: `num_to_base_64` is a pure function of its `u64` input producing a
22-character string, and for `m < n` the encodings agree — hence compare
lexicographically `≤` — on the character region covered by the leading zero
bytes shared by the two 16-byte buffers. -/
theorem num_to_base_64_pure_and_prefix_monotone (m n : Nat)
    (hm : m < 2 ^ 64) (hn : n < 2 ^ 64) (hmn : m < n) :
    (∀ m', m = m' → num_to_base_64 m = num_to_base_64 m') ∧
    (num_to_base_64 m).length = 22 ∧ (num_to_base_64 n).length = 22 ∧
    lexLe ((num_to_base_64 m).data.take (zchars (sharedLZ m n)))
          ((num_to_base_64 n).data.take (zchars (sharedLZ m n))) := by
  have hlen : ∀ k, (num_to_base_64 k).length = 22 := by
    intro k
    show ((b64encode (snBuffer k)).take 22).length = 22
    rw [List.length_take, b64_snBuffer_length]
    omega
  refine ⟨fun m' h => by rw [h], hlen m, hlen n, ?_⟩
  have hlzm : sharedLZ m n ≤ leadingZeros (snBuffer m) := min_le_left _ _
  have hlzn : sharedLZ m n ≤ leadingZeros (snBuffer n) := min_le_right _ _
  have h16 : sharedLZ m n ≤ 16 := by
    have := leadingZeros_le_length (snBuffer m)
    rw [snBuffer_length] at this
    exact le_trans hlzm this
  have hk : zchars (sharedLZ m n) ≤ 21 := by
    have hz : zchars (sharedLZ m n) =
        4 * (sharedLZ m n / 3) + 8 * (sharedLZ m n % 3) / 6 := rfl
    omega
  have hdata : ∀ k, (num_to_base_64 k).data = (b64encode (snBuffer k)).take 22 :=
    fun k => rfl
  rw [hdata, hdata, List.take_take, List.take_take]
  have hmin : min (zchars (sharedLZ m n)) 22 = zchars (sharedLZ m n) := by omega
  rw [hmin, take_zchars_A _ _ hlzm, take_zchars_A _ _ hlzn]
  exact Or.inl rfl

/-- Witness for C8 at the concrete pair 0 < 1. -/
theorem num_to_base_64_pure_and_prefix_monotone_witness :
    ((0 : Nat) < 2 ^ 64 ∧ (1 : Nat) < 2 ^ 64 ∧ (0 : Nat) < 1) ∧
    ((∀ m', 0 = m' → num_to_base_64 0 = num_to_base_64 m') ∧
     (num_to_base_64 0).length = 22 ∧ (num_to_base_64 1).length = 22 ∧
     lexLe ((num_to_base_64 0).data.take (zchars (sharedLZ 0 1)))
           ((num_to_base_64 1).data.take (zchars (sharedLZ 0 1)))) :=
  ⟨⟨by decide, by decide, by decide⟩,
   num_to_base_64_pure_and_prefix_monotone 0 1 (by decide) (by decide) (by decide)⟩
